import Mathlib

/-!
Shallow embedding of the odds-optimizer-service core (Go) in Lean 4.

Modelling conventions:
* `decimal.Decimal` (shopspring/decimal) values are modelled as `ℚ`,
  with exact rational division standing for the library's high-precision
  decimal division.
* `float64` values (confidence arithmetic) are likewise modelled as `ℚ`.
* `time.Time` instants are modelled as rational minutes since an epoch;
  `time.Since t` evaluated at wall-clock instant `now` is `now - t`, and
  `Duration.Minutes` of that difference is the difference itself.
* `uuid.New()` and `time.Now()` are ambient effects; they are threaded as
  explicit parameters (`freshId : Nat`, `now : ℚ`) so the pricing functions
  become pure.
* Go `error` results are modelled with `Except`.
-/

/-- Model of `models.NormalizedOdds` (internal/models): odds after normalization. -/
structure NormalizedOdds where
  id : Nat
  eventID : String
  eventName : String
  sport : String
  competition : String
  market : String
  selection : String
  backPrice : ℚ
  layPrice : ℚ
  backSize : ℚ
  laySize : ℚ
  timestamp : ℚ
  normalizedAt : ℚ
deriving DecidableEq, Repr

/-- Model of `models.OptimizedOdds` (internal/models): odds after optimization. -/
structure OptimizedOdds where
  id : Nat
  eventID : String
  eventName : String
  sport : String
  competition : String
  market : String
  selection : String
  optimizedBack : ℚ
  optimizedLay : ℚ
  originalBack : ℚ
  originalLay : ℚ
  backSize : ℚ
  laySize : ℚ
  margin : ℚ
  confidence : ℚ
  timestamp : ℚ
  optimizedAt : ℚ
deriving DecidableEq, Repr

/-- Model of `models.OptimizationParams` (internal/models). -/
structure OptimizationParams where
  minMargin : ℚ
  maxMargin : ℚ
  minSpread : ℚ
  targetConfidence : ℚ
deriving DecidableEq, Repr

/-- Model of `Optimizer.calculateImpliedProbability` (pkg/optimizer):
implied probability = 1 / decimal odds. -/
def calculateImpliedProbability (odds : ℚ) : ℚ :=
  1 / odds

/-- Model of `Optimizer.probabilityToOdds` (pkg/optimizer): decimal odds = 1 / probability,
with a safeguard returning exactly 1 when the probability is outside (0, 1). -/
def probabilityToOdds (prob : ℚ) : ℚ :=
  if prob ≤ 0 ∨ prob ≥ 1 then 1 else 1 / prob

/-- Model of `Optimizer.calculateTargetMargin` (pkg/optimizer): start at `minMargin`,
add a liquidity uplift when total liquidity is below the 10000 threshold,
apply the sport multiplier, and clamp to `[minMargin, maxMargin]`. -/
def calculateTargetMargin (p : OptimizationParams) (normalized : NormalizedOdds) : ℚ :=
  let margin0 := p.minMargin
  let totalLiquidity := normalized.backSize + normalized.laySize
  let liquidityThreshold : ℚ := 10000
  let margin1 :=
    if totalLiquidity < liquidityThreshold then
      margin0 + (p.maxMargin - p.minMargin) * (1 - totalLiquidity / liquidityThreshold)
    else margin0
  let margin2 :=
    if normalized.sport = "football" ∨ normalized.sport = "soccer" then margin1 * (8/10)
    else if normalized.sport = "tennis" then margin1 * 1
    else margin1 * (12/10)
  let margin3 := if margin2 < p.minMargin then p.minMargin else margin2
  let margin4 := if margin3 > p.maxMargin then p.maxMargin else margin3
  margin4

/-- Model of `Optimizer.calculateConfidence` (pkg/optimizer): base `targetConfidence`
scaled by a liquidity factor, a spread factor and a freshness factor, then
clamped to `[0, 1]`. `now` is the wall-clock instant at which
`time.Since(normalized.Timestamp)` is evaluated, in minutes. -/
def calculateConfidence (p : OptimizationParams) (now : ℚ)
    (normalized : NormalizedOdds) (spread : ℚ) : ℚ :=
  let confidence0 := p.targetConfidence
  let totalLiquidity := normalized.backSize + normalized.laySize
  let liquidityScore := min 1 (totalLiquidity / 20000)
  let confidence1 := confidence0 * (7/10 + 3/10 * liquidityScore)
  let spreadPercent := spread / normalized.backPrice
  let spreadScore := max 0 (1 - spreadPercent * 10)
  let confidence2 := confidence1 * (8/10 + 2/10 * spreadScore)
  let age := now - normalized.timestamp
  let freshnessScore := max 0 (1 - age / 60)
  let confidence3 := confidence2 * (9/10 + 1/10 * freshnessScore)
  let confidence4 := if confidence3 < 0 then 0 else confidence3
  let confidence5 := if confidence4 > 1 then 1 else confidence4
  confidence5

/-- The `models.OptimizedOdds` record built by `Optimizer.Optimize` on the
success path (pkg/optimizer, lines 36-83).  The single `if spread < MinSpread`
block that adjusts both prices is rendered as two `if`s with the same
condition. -/
def mkOptimizedOdds (p : OptimizationParams) (freshId : Nat) (now : ℚ)
    (normalized : NormalizedOdds) : OptimizedOdds :=
  let impliedProbBack := calculateImpliedProbability normalized.backPrice
  -- lines 38-41: impliedProbLay is computed for future use and discarded
  let _impliedProbLay : ℚ :=
    if ¬ normalized.layPrice = 0 ∧ normalized.layPrice > 1 then
      calculateImpliedProbability normalized.layPrice
    else 0
  let targetMargin := calculateTargetMargin p normalized
  let optimizedProbBack := impliedProbBack + targetMargin / 2
  let optimizedProbLay := impliedProbBack - targetMargin / 2
  let optimizedBack := probabilityToOdds optimizedProbBack
  let optimizedLay := probabilityToOdds optimizedProbLay
  let spread := optimizedBack - optimizedLay
  let adjustment := (p.minSpread - spread) / 2
  let optimizedBackAdj := if spread < p.minSpread then optimizedBack + adjustment else optimizedBack
  let optimizedLayAdj := if spread < p.minSpread then optimizedLay - adjustment else optimizedLay
  let confidence := calculateConfidence p now normalized spread
  { id := freshId
    eventID := normalized.eventID
    eventName := normalized.eventName
    sport := normalized.sport
    competition := normalized.competition
    market := normalized.market
    selection := normalized.selection
    optimizedBack := optimizedBackAdj
    optimizedLay := optimizedLayAdj
    originalBack := normalized.backPrice
    originalLay := normalized.layPrice
    backSize := normalized.backSize
    laySize := normalized.laySize
    margin := targetMargin
    confidence := confidence
    timestamp := normalized.timestamp
    optimizedAt := now }

/-- Model of `Optimizer.Optimize` (pkg/optimizer): validate `BackPrice > 1`, then
build the optimized odds. -/
def Optimize (p : OptimizationParams) (freshId : Nat) (now : ℚ)
    (normalized : NormalizedOdds) : Except String OptimizedOdds :=
  if normalized.backPrice ≤ 1 then
    .error "invalid back price"
  else
    .ok (mkOptimizedOdds p freshId now normalized)

/-- Recursion underlying `Optimizer.BatchOptimize` (pkg/optimizer): price each
item in order, dropping the ones whose `Optimize` fails.  `i` is the position
in the input list, used to draw a fresh id from the supply `ids`. -/
def batchOptimizeGo (p : OptimizationParams) (ids : Nat → Nat) (now : ℚ) :
    List NormalizedOdds → Nat → List OptimizedOdds
  | [], _ => []
  | odds :: rest, i =>
    match Optimize p (ids i) now odds with
    | .error _ => batchOptimizeGo p ids now rest (i + 1)
    | .ok opt => opt :: batchOptimizeGo p ids now rest (i + 1)

/-- Model of `Optimizer.BatchOptimize` (pkg/optimizer): always returns `nil` error. -/
def BatchOptimize (p : OptimizationParams) (ids : Nat → Nat) (now : ℚ)
    (normalized : List NormalizedOdds) : Except String (List OptimizedOdds) :=
  .ok (batchOptimizeGo p ids now normalized 0)

/-- Model of `OptimizerService.OptimizeOdds` (internal/service): run the optimizer,
propagate its error; a `cache.Set` failure (`cacheSetErr = some _`) is only
logged and the freshly computed result is still returned. -/
def OptimizeOdds (p : OptimizationParams) (cacheSetErr : Option String)
    (freshId : Nat) (now : ℚ) (normalized : NormalizedOdds) :
    Except String OptimizedOdds :=
  match Optimize p freshId now normalized with
  | .error err => .error ("optimization failed: " ++ err)
  | .ok optimized =>
    match cacheSetErr with
    | some _ => .ok optimized  -- warn log only; request does not fail
    | none => .ok optimized

/-! ### Cache Store (`RedisCache`, internal/cache) -/

/-- A payload stored under a cache key: either valid JSON for an
`OptimizedOdds`, or bytes that `json.Unmarshal` rejects. -/
inductive CachePayload where
  | parseable (odds : OptimizedOdds)
  | corrupt (raw : String)
deriving DecidableEq, Repr

/-- Model of `json.Unmarshal` into `models.OptimizedOdds`, abstracted over payloads. -/
def jsonUnmarshalOdds : CachePayload → Option OptimizedOdds
  | .parseable odds => some odds
  | .corrupt _ => none

/-- Outcome of the Redis `GET` round trip inside `RedisCache.Get`:
`redis.Nil` when the key is absent or has expired (Redis reports an expired
key exactly like an absent one), a transport failure, or the stored bytes. -/
inductive RedisGetReply where
  | nilReply
  | failure (msg : String)
  | value (data : CachePayload)
deriving DecidableEq, Repr

/-- The distinct error values `RedisCache.Get` can return, one per
`fmt.Errorf` site (internal/cache, lines 74-86). -/
inductive CacheGetError where
  | oddsNotFoundInCache
  | failedToGetFromRedis (msg : String)
  | failedToUnmarshalOdds
deriving DecidableEq, Repr

/-- Model of `RedisCache.Get` (internal/cache): `redis.Nil` becomes the
"odds not found in cache" error, a transport failure is wrapped, and a
payload that fails to deserialize becomes the distinct
"failed to unmarshal odds" error. -/
def RedisCache.Get (reply : RedisGetReply) : Except CacheGetError OptimizedOdds :=
  match reply with
  | .nilReply => .error .oddsNotFoundInCache
  | .failure msg => .error (.failedToGetFromRedis msg)
  | .value data =>
    match jsonUnmarshalOdds data with
    | some odds => .ok odds
    | none => .error .failedToUnmarshalOdds

/-! ### Ingestion loop (`KafkaConsumer`, internal/messaging) -/

/-- Model of `models.KafkaNormalizedOddsMessage`: the batch envelope. -/
structure KafkaNormalizedOddsMessage where
  oddsData : List NormalizedOdds
  timestamp : ℚ
  batchID : String

/-- The body of a fetched Kafka message: either bytes that decode to a
batch envelope, or bytes `json.Unmarshal` rejects. -/
inductive RawMessage where
  | wellFormed (m : KafkaNormalizedOddsMessage)
  | malformed

/-- Model of `KafkaConsumer.processMessage` (internal/messaging, lines 98-134):
unmarshal the envelope, batch-optimize, write the batch to the cache.
`cacheSetBatchFails` is the outcome of the `cache.SetBatch` round trip. -/
def processMessage (p : OptimizationParams) (ids : Nat → Nat) (now : ℚ)
    (cacheSetBatchFails : Bool) (msg : RawMessage) : Except String Unit :=
  match msg with
  | .malformed => .error "failed to unmarshal message"
  | .wellFormed kafkaMsg =>
    match BatchOptimize p ids now kafkaMsg.oddsData with
    | .error e => .error ("failed to optimize odds: " ++ e)
    | .ok _optimizedOdds =>
      if cacheSetBatchFails then .error "failed to cache odds"
      else .ok ()

/-- Outcome of the `reader.FetchMessage` call in one loop iteration. -/
inductive FetchResult where
  | canceled              -- err == context.Canceled: return nil
  | otherFailure          -- transient fetch error: log and continue
  | fetched (msg : RawMessage)

/-- What one iteration of the `KafkaConsumer.Start` loop (internal/messaging,
lines 61-94) does with the message. -/
inductive IterAction where
  | stopped               -- ctx done or context.Canceled fetch error
  | continuedNoCommit     -- fetch failure or processing failure: no commit
  | committed             -- processing succeeded: CommitMessages is called
deriving DecidableEq, Repr

/-- One iteration of the `Start` loop: stop on cancellation, skip the commit
when the fetch or `processMessage` fails, and call `CommitMessages` only
after `processMessage` returns without error. -/
def consumerStep (p : OptimizationParams) (ids : Nat → Nat) (now : ℚ)
    (ctxDone : Bool) (fetch : FetchResult) (cacheSetBatchFails : Bool) :
    IterAction :=
  if ctxDone then .stopped
  else
    match fetch with
    | .canceled => .stopped
    | .otherFailure => .continuedNoCommit
    | .fetched msg =>
      match processMessage p ids now cacheSetBatchFails msg with
      | .error _ => .continuedNoCommit
      | .ok _ => .committed

/-! ### Concrete fixtures used by the closed theorems -/

/-- The default optimization parameters (internal/config):
`min_margin = 0.02`, `max_margin = 0.10`, `min_spread = 0.05`,
`target_confidence = 0.85`. -/
def defaultParams : OptimizationParams :=
  { minMargin := 1/50, maxMargin := 1/10, minSpread := 1/20, targetConfidence := 17/20 }

/-- The spec's concrete football scenario input. -/
def footballQuote : NormalizedOdds :=
  { id := 0, eventID := "event-123", eventName := "Team A vs Team B",
    sport := "football", competition := "Premier League",
    market := "match_winner", selection := "Team A",
    backPrice := 5/2, layPrice := 13/5, backSize := 10000, laySize := 8000,
    timestamp := 0, normalizedAt := 0 }

/-- A valid low-priced quote (`back_price = 1.01`, ample liquidity). -/
def tennisLowPriceQuote : NormalizedOdds :=
  { footballQuote with sport := "tennis", backPrice := 101/100, layPrice := 0 }

/-- Batch fixture: second valid item. -/
def batchQuote3 : NormalizedOdds :=
  { footballQuote with eventID := "event-789", selection := "Team C" }

/-- Batch fixture: the invalid item, `back_price = 0.5`. -/
def invalidQuote : NormalizedOdds :=
  { footballQuote with eventID := "event-456", selection := "Team B", backPrice := 1/2 }

/-- A placeholder stored quote for cache round trips. -/
def storedQuote : OptimizedOdds :=
  { id := 0, eventID := "event-123", eventName := "Team A vs Team B",
    sport := "football", competition := "Premier League",
    market := "match_winner", selection := "Team A",
    optimizedBack := 49/20, optimizedLay := 51/20, originalBack := 5/2,
    originalLay := 13/5, backSize := 10000, laySize := 8000,
    margin := 1/50, confidence := 17/20, timestamp := 0, optimizedAt := 0 }

/-! ### Helper lemmas -/

/-- The final clamp in `calculateTargetMargin` keeps the margin inside
`[minMargin, maxMargin]`. -/
lemma targetMargin_bounds (p : OptimizationParams) (n : NormalizedOdds)
    (h : p.minMargin ≤ p.maxMargin) :
    p.minMargin ≤ calculateTargetMargin p n ∧ calculateTargetMargin p n ≤ p.maxMargin := by
  simp only [calculateTargetMargin]
  split_ifs <;> constructor <;> linarith

/-- The final clamp in `calculateConfidence` keeps the confidence inside
`[0, 1]`. -/
lemma confidence_bounds (p : OptimizationParams) (now : ℚ) (n : NormalizedOdds)
    (spread : ℚ) :
    0 ≤ calculateConfidence p now n spread ∧ calculateConfidence p now n spread ≤ 1 := by
  simp only [calculateConfidence]
  split_ifs <;> constructor <;> linarith

/-- After the spread-floor adjustment the optimized prices are at least
`minSpread` apart. -/
lemma mkOptimizedOdds_spread_floor (p : OptimizationParams) (freshId : Nat)
    (now : ℚ) (n : NormalizedOdds) :
    p.minSpread ≤ (mkOptimizedOdds p freshId now n).optimizedBack -
      (mkOptimizedOdds p freshId now n).optimizedLay := by
  simp only [mkOptimizedOdds]
  split_ifs with h
  · linarith
  · linarith

/-- C1: For every `NormalizedOdds` input and parameters with
`max_margin > min_margin > 0`, `Optimize` returns an `InvalidInput` error
if and only if `back_price ≤ 1`; for every input with `back_price > 1` it
succeeds and the result satisfies all four invariants:
`min_margin ≤ margin ≤ max_margin`,
`optimized_back − optimized_lay ≥ min_spread`, `0 ≤ confidence ≤ 1`, and
`original_back`/`original_lay` equal the input's prices. -/
theorem optimize_valid_iff_and_invariants (p : OptimizationParams)
    (h0 : 0 < p.minMargin) (h1 : p.minMargin < p.maxMargin)
    (freshId : Nat) (now : ℚ) (n : NormalizedOdds) :
    ((∃ e, Optimize p freshId now n = .error e) ↔ n.backPrice ≤ 1) ∧
    (1 < n.backPrice →
      ∃ o, Optimize p freshId now n = .ok o ∧
        p.minMargin ≤ o.margin ∧ o.margin ≤ p.maxMargin ∧
        p.minSpread ≤ o.optimizedBack - o.optimizedLay ∧
        0 ≤ o.confidence ∧ o.confidence ≤ 1 ∧
        o.originalBack = n.backPrice ∧ o.originalLay = n.layPrice) := by
  constructor
  · constructor
    · rintro ⟨e, he⟩
      by_contra hgt
      simp only [Optimize, if_neg hgt] at he
      exact Except.noConfusion he
    · intro hle
      exact ⟨"invalid back price", by simp only [Optimize, if_pos hle]⟩
  · intro hgt
    have hnot : ¬ n.backPrice ≤ 1 := not_le.mpr hgt
    refine ⟨mkOptimizedOdds p freshId now n, by simp only [Optimize, if_neg hnot], ?_, ?_, ?_, ?_, ?_, rfl, rfl⟩
    · exact (targetMargin_bounds p n (le_of_lt h1)).1
    · exact (targetMargin_bounds p n (le_of_lt h1)).2
    · exact mkOptimizedOdds_spread_floor p freshId now n
    · exact (confidence_bounds p now n _).1
    · exact (confidence_bounds p now n _).2

/-- Witness for C1 at the default parameters and the concrete football quote. -/
theorem optimize_valid_iff_and_invariants_witness :
    (0 < defaultParams.minMargin ∧ defaultParams.minMargin < defaultParams.maxMargin) ∧
    (((∃ e, Optimize defaultParams 7 0 footballQuote = .error e) ↔
        footballQuote.backPrice ≤ 1) ∧
      (1 < footballQuote.backPrice →
        ∃ o, Optimize defaultParams 7 0 footballQuote = .ok o ∧
          defaultParams.minMargin ≤ o.margin ∧ o.margin ≤ defaultParams.maxMargin ∧
          defaultParams.minSpread ≤ o.optimizedBack - o.optimizedLay ∧
          0 ≤ o.confidence ∧ o.confidence ≤ 1 ∧
          o.originalBack = footballQuote.backPrice ∧
          o.originalLay = footballQuote.layPrice)) :=
  ⟨⟨by norm_num [defaultParams], by norm_num [defaultParams]⟩,
    optimize_valid_iff_and_invariants defaultParams
      (by norm_num [defaultParams]) (by norm_num [defaultParams]) 7 0 footballQuote⟩

/-- Lemma: `batchOptimizeGo` prices every item independently in input order,
dropping exactly the items `Optimize` rejects. -/
lemma batchOptimizeGo_eq_filterMap (p : OptimizationParams) (ids : Nat → Nat)
    (now : ℚ) (l : List NormalizedOdds) (i : Nat) :
    batchOptimizeGo p ids now l i =
      (List.enumFrom i l).filterMap
        (fun pr => (Optimize p (ids pr.1) now pr.2).toOption) := by
  induction l generalizing i with
  | nil => simp [batchOptimizeGo]
  | cons head rest ih =>
    simp only [batchOptimizeGo, List.enumFrom, List.filterMap_cons]
    rcases h : Optimize p (ids i) now head with e | o <;>
      simp [h, Except.toOption, ih]

/-- C2: For every batch of inputs, `BatchOptimize` prices each item
independently and never returns an error for the batch as a whole: an item
with `back_price ≤ 1` is dropped and the remaining items appear in the
output preserving relative input order and identity fields; a 3-item batch
in which exactly the middle item has `back_price = 0.5` yields exactly 2
outputs corresponding, in order, to the 2 valid inputs. -/
theorem batchOptimize_drops_invalid_preserving_order :
    (∀ (p : OptimizationParams) (ids : Nat → Nat) (now : ℚ)
        (l : List NormalizedOdds),
      BatchOptimize p ids now l =
        .ok (l.enum.filterMap
          (fun pr => (Optimize p (ids pr.1) now pr.2).toOption))) ∧
    (∃ out, BatchOptimize defaultParams (fun i => i) 0
        [footballQuote, invalidQuote, batchQuote3] = .ok out ∧
      out.length = 2 ∧
      out.map (fun o => o.eventID) = [footballQuote.eventID, batchQuote3.eventID] ∧
      out.map (fun o => o.selection) = [footballQuote.selection, batchQuote3.selection] ∧
      out.map (fun o => o.originalBack) = [footballQuote.backPrice, batchQuote3.backPrice] ∧
      out.map (fun o => o.id) = [0, 2]) := by
  constructor
  · intro p ids now l
    simp only [BatchOptimize, batchOptimizeGo_eq_filterMap, List.enum]
  · refine ⟨batchOptimizeGo defaultParams (fun i => i) 0
      [footballQuote, invalidQuote, batchQuote3] 0, rfl, ?_, ?_, ?_, ?_, ?_⟩ <;>
      norm_num [batchOptimizeGo, Optimize, footballQuote, invalidQuote,
        batchQuote3, defaultParams, mkOptimizedOdds]

/-- C3: In the ingestion loop, a message is committed only when the context
is live, the fetch succeeded, and `processMessage` (decode, batch pricing,
batch cache write) returned no error; a message whose processing step
returned an error is never committed in that iteration; and a successful
`processMessage` requires a well-formed envelope, a successful batch
optimization, and a successful batch cache write. -/
theorem consumer_commit_only_after_success (p : OptimizationParams)
    (ids : Nat → Nat) (now : ℚ) (ctxDone : Bool) (fetch : FetchResult)
    (cacheFails : Bool) :
    (consumerStep p ids now ctxDone fetch cacheFails = .committed ↔
      ctxDone = false ∧ ∃ m, fetch = .fetched m ∧
        processMessage p ids now cacheFails m = .ok ()) ∧
    (∀ m e, fetch = .fetched m →
      processMessage p ids now cacheFails m = .error e →
      consumerStep p ids now ctxDone fetch cacheFails ≠ .committed) ∧
    (∀ m, processMessage p ids now cacheFails m = .ok () →
      ∃ k, m = .wellFormed k ∧ cacheFails = false ∧
        ∃ out, BatchOptimize p ids now k.oddsData = .ok out) := by
  refine ⟨⟨?_, ?_⟩, ?_, ?_⟩
  · intro h
    cases ctxDone with
    | true => simp [consumerStep] at h
    | false =>
      cases fetch with
      | canceled => simp [consumerStep] at h
      | otherFailure => simp [consumerStep] at h
      | fetched m =>
        refine ⟨rfl, m, rfl, ?_⟩
        rcases hm : processMessage p ids now cacheFails m with e | u
        · simp [consumerStep, hm] at h
        · cases u; rfl
  · rintro ⟨hctx, m, hm, hp⟩
    subst hctx; subst hm
    simp [consumerStep, hp]
  · rintro m e rfl hp h
    cases ctxDone with
    | true => simp [consumerStep] at h
    | false => simp [consumerStep, hp] at h
  · intro m hp
    cases m with
    | malformed => simp [processMessage] at hp
    | wellFormed k =>
      refine ⟨k, rfl, ?_, batchOptimizeGo p ids now k.oddsData 0, rfl⟩
      simp only [processMessage, BatchOptimize] at hp
      cases cacheFails with
      | true => simp at hp
      | false => rfl

/-- Witness for C3: a live iteration with a well-formed empty batch and a
healthy cache write commits, via the first conjunct of the theorem. -/
theorem consumer_commit_only_after_success_witness :
    consumerStep defaultParams (fun i => i) 0 false
      (.fetched (.wellFormed ⟨[], 0, "batch-1"⟩)) false = .committed :=
  (consumer_commit_only_after_success defaultParams (fun i => i) 0 false
      (.fetched (.wellFormed ⟨[], 0, "batch-1"⟩)) false).1.mpr
    ⟨rfl, .wellFormed ⟨[], 0, "batch-1"⟩, rfl, rfl⟩

/-- C4: for the concrete input `back_price=2.50, lay_price=2.60,
back_size=10000, lay_size=8000, sport="football"` with the default
parameters and a fresh timestamp: implied probability is `0.40`; total
liquidity meets the 10000 threshold so no liquidity uplift applies; the
football multiplier gives `0.016`, clamped up to `margin = 0.02`; the
returned `optimized_back − optimized_lay` is `≥ 0.05` after floor
enforcement; and the returned confidence lies strictly between 0.5 and 1. -/
theorem optimize_football_concrete_scenario :
    calculateImpliedProbability footballQuote.backPrice = 2/5 ∧
    ¬ footballQuote.backSize + footballQuote.laySize < 10000 ∧
    defaultParams.minMargin * (8/10) = 2/125 ∧
    defaultParams.minMargin * (8/10) < defaultParams.minMargin ∧
    calculateTargetMargin defaultParams footballQuote = defaultParams.minMargin ∧
    ∃ o, Optimize defaultParams 7 footballQuote.timestamp footballQuote = .ok o ∧
      1/20 ≤ o.optimizedBack - o.optimizedLay ∧
      1/2 < o.confidence ∧ o.confidence < 1 := by
  refine ⟨?_, ?_, ?_, ?_, ?_,
    mkOptimizedOdds defaultParams 7 footballQuote.timestamp footballQuote, ?_, ?_, ?_, ?_⟩ <;>
    norm_num [calculateImpliedProbability, calculateTargetMargin, calculateConfidence,
      probabilityToOdds, Optimize, mkOptimizedOdds, footballQuote, defaultParams,
      min_def, max_def]

/-- C5 counterexample: a stored payload that fails to deserialize does NOT
yield the "odds not found in cache" error — `RedisCache.Get` returns the
distinct "failed to unmarshal odds" error, so corruption is not treated the
same as absence at the `Get` level. -/
theorem cache_get_corruption_counterexample :
    RedisCache.Get (.value (.corrupt "invalid json data")) =
      .error .failedToUnmarshalOdds ∧
    CacheGetError.failedToUnmarshalOdds ≠ CacheGetError.oddsNotFoundInCache := by
  exact ⟨rfl, by decide⟩

/-- C5 amended: `RedisCache.Get` returns an error — never a value — when the
key is absent or expired (`redis.Nil`) and when the stored payload fails to
deserialize; the absent/expired case yields the not-found error while the
corruption case yields a distinct unmarshal error, and a value is returned
only for a stored payload that deserializes. -/
theorem cache_get_errors_amended :
    RedisCache.Get .nilReply = .error .oddsNotFoundInCache ∧
    (∀ raw, RedisCache.Get (.value (.corrupt raw)) =
      .error .failedToUnmarshalOdds) ∧
    (∀ reply odds, RedisCache.Get reply = .ok odds →
      ∃ data, reply = .value data ∧ jsonUnmarshalOdds data = some odds) := by
  refine ⟨rfl, fun raw => rfl, ?_⟩
  intro reply odds h
  cases reply with
  | nilReply => exact Except.noConfusion h
  | failure msg => exact Except.noConfusion h
  | value data =>
    cases data with
    | parseable o =>
      refine ⟨.parseable o, rfl, ?_⟩
      simpa [RedisCache.Get, jsonUnmarshalOdds] using h
    | corrupt raw => simp [RedisCache.Get, jsonUnmarshalOdds] at h

/-- Witness for C5's amended theorem: the success-only-from-parseable clause
applied to a concrete parseable payload. -/
theorem cache_get_errors_amended_witness :
    ∃ data, RedisGetReply.value (.parseable storedQuote) = .value data ∧
      jsonUnmarshalOdds data = some storedQuote :=
  cache_get_errors_amended.2.2 (.value (.parseable storedQuote)) storedQuote rfl

/-- The liquidity-uplift stage of `calculateTargetMargin` is antitone in
total liquidity. -/
lemma marginUplift_antitone (p : OptimizationParams)
    (h : p.minMargin ≤ p.maxMargin) {t₁ t₂ : ℚ} (ht : t₁ ≤ t₂) :
    (if t₂ < 10000 then
        p.minMargin + (p.maxMargin - p.minMargin) * (1 - t₂ / 10000)
      else p.minMargin) ≤
    (if t₁ < 10000 then
        p.minMargin + (p.maxMargin - p.minMargin) * (1 - t₁ / 10000)
      else p.minMargin) := by
  split_ifs with h₂ h₁ h₁
  · have hfac : 1 - t₂ / 10000 ≤ 1 - t₁ / 10000 := by linarith
    have := mul_le_mul_of_nonneg_left hfac (show (0:ℚ) ≤ p.maxMargin - p.minMargin by linarith)
    linarith
  · exact absurd (lt_of_le_of_lt ht h₂) h₁
  · have hlt : t₁ / 10000 < 1 := (div_lt_one (by norm_num)).mpr h₁
    have := mul_nonneg (show (0:ℚ) ≤ p.maxMargin - p.minMargin by linarith)
      (show (0:ℚ) ≤ 1 - t₁ / 10000 by linarith)
    linarith
  · exact le_refl _

/-- The sport-multiplier stage of `calculateTargetMargin` is monotone. -/
lemma sportMultiplier_mono (sport : String) {x y : ℚ} (hxy : x ≤ y) :
    (if sport = "football" ∨ sport = "soccer" then x * (8/10)
      else if sport = "tennis" then x * 1 else x * (12/10)) ≤
    (if sport = "football" ∨ sport = "soccer" then y * (8/10)
      else if sport = "tennis" then y * 1 else y * (12/10)) := by
  split_ifs with h₁ h₂
  · exact mul_le_mul_of_nonneg_right hxy (by norm_num)
  · exact mul_le_mul_of_nonneg_right hxy (by norm_num)
  · exact mul_le_mul_of_nonneg_right hxy (by norm_num)

/-- The final clamp of `calculateTargetMargin` is monotone. -/
lemma clampMargin_mono (p : OptimizationParams)
    (h : p.minMargin ≤ p.maxMargin) {x y : ℚ} (hxy : x ≤ y) :
    (if (if x < p.minMargin then p.minMargin else x) > p.maxMargin
        then p.maxMargin else (if x < p.minMargin then p.minMargin else x)) ≤
    (if (if y < p.minMargin then p.minMargin else y) > p.maxMargin
        then p.maxMargin else (if y < p.minMargin then p.minMargin else y)) := by
  split_ifs <;> linarith

/-- C6: holding sport, prices, timestamp, and parameters fixed (with
`max_margin > min_margin > 0`), the margin returned by
`calculateTargetMargin` is monotonically non-decreasing as total liquidity
(`back_size + lay_size`) decreases. -/
theorem targetMargin_antitone_in_liquidity (p : OptimizationParams)
    (h0 : 0 < p.minMargin) (h1 : p.minMargin < p.maxMargin)
    (n : NormalizedOdds) (b₁ l₁ b₂ l₂ : ℚ) (hliq : b₁ + l₁ ≤ b₂ + l₂) :
    calculateTargetMargin p { n with backSize := b₂, laySize := l₂ } ≤
      calculateTargetMargin p { n with backSize := b₁, laySize := l₁ } := by
  have hMm : p.minMargin ≤ p.maxMargin := le_of_lt h1
  exact clampMargin_mono p hMm
    (sportMultiplier_mono n.sport (marginUplift_antitone p hMm hliq))

/-- Witness for C6: liquidity 3000 versus 18000 on the football fixture at
the default parameters. -/
theorem targetMargin_antitone_in_liquidity_witness :
    (0 < defaultParams.minMargin ∧ defaultParams.minMargin < defaultParams.maxMargin ∧
      (1000 : ℚ) + 2000 ≤ 10000 + 8000) ∧
    calculateTargetMargin defaultParams
        { footballQuote with backSize := 10000, laySize := 8000 } ≤
      calculateTargetMargin defaultParams
        { footballQuote with backSize := 1000, laySize := 2000 } :=
  ⟨⟨by norm_num [defaultParams], by norm_num [defaultParams], by norm_num⟩,
    targetMargin_antitone_in_liquidity defaultParams
      (by norm_num [defaultParams]) (by norm_num [defaultParams])
      footballQuote 1000 2000 10000 8000 (by norm_num)⟩

/-- Clamping to `[0, 1]` of a product with a positive factor is monotone in
that factor. -/
lemma clamp01_mul_mono (P f₁ f₂ : ℚ) (hf : f₁ ≤ f₂) (hf₁ : 0 < f₁)
    (hf₂ : 0 < f₂) :
    (if (if P * f₁ < 0 then 0 else P * f₁) > 1 then 1
      else (if P * f₁ < 0 then 0 else P * f₁)) ≤
    (if (if P * f₂ < 0 then 0 else P * f₂) > 1 then 1
      else (if P * f₂ < 0 then 0 else P * f₂)) := by
  rcases le_or_lt 0 P with hP | hP
  · have hmul : P * f₁ ≤ P * f₂ := mul_le_mul_of_nonneg_left hf hP
    split_ifs <;> linarith
  · have h₁ : P * f₁ < 0 := mul_neg_of_neg_of_pos hP hf₁
    have h₂ : P * f₂ < 0 := mul_neg_of_neg_of_pos hP hf₂
    split_ifs <;> linarith

/-- C7: holding liquidity, prices, spread, parameters, and the evaluation
time fixed, the confidence returned by `calculateConfidence` is
monotonically non-increasing as the age of the observation timestamp
increases: the input with the older timestamp `t₁ ≤ t₂` gets a confidence
less than or equal to the other's. -/
theorem confidence_antitone_in_age (p : OptimizationParams) (now : ℚ)
    (n : NormalizedOdds) (spread : ℚ) (t₁ t₂ : ℚ) (holder : t₁ ≤ t₂) :
    calculateConfidence p now { n with timestamp := t₁ } spread ≤
      calculateConfidence p now { n with timestamp := t₂ } spread := by
  have hfresh : max 0 (1 - (now - t₁) / 60) ≤ max 0 (1 - (now - t₂) / 60) :=
    max_le_max (le_refl 0) (by linarith)
  have hfac : 9/10 + 1/10 * max 0 (1 - (now - t₁) / 60) ≤
      9/10 + 1/10 * max 0 (1 - (now - t₂) / 60) := by
    have := mul_le_mul_of_nonneg_left hfresh (show (0:ℚ) ≤ 1/10 by norm_num)
    linarith
  have hpos₁ : (0:ℚ) < 9/10 + 1/10 * max 0 (1 - (now - t₁) / 60) := by
    have : (0:ℚ) ≤ max 0 (1 - (now - t₁) / 60) := le_max_left 0 _
    nlinarith
  have hpos₂ : (0:ℚ) < 9/10 + 1/10 * max 0 (1 - (now - t₂) / 60) := by
    have : (0:ℚ) ≤ max 0 (1 - (now - t₂) / 60) := le_max_left 0 _
    nlinarith
  exact clamp01_mul_mono _ _ _ hfac hpos₁ hpos₂

/-- Witness for C7: a one-hour-old observation versus a fresh one on the
football fixture. -/
theorem confidence_antitone_in_age_witness :
    ((-60 : ℚ) ≤ 0) ∧
    calculateConfidence defaultParams 0 { footballQuote with timestamp := -60 } (1/20) ≤
      calculateConfidence defaultParams 0 { footballQuote with timestamp := 0 } (1/20) :=
  ⟨by norm_num,
    confidence_antitone_in_age defaultParams 0 footballQuote (1/20) (-60) 0 (by norm_num)⟩

/-- C8: for every valid input (`back_price > 1`), the service-level
`OptimizeOdds` returns the freshly computed optimized quote even when the
cache write fails: a cache `Set` error does not cause the call to return an
error, and the returned value is exactly the optimizer's output. -/
theorem optimizeOdds_survives_cache_failure (p : OptimizationParams)
    (freshId : Nat) (now : ℚ) (n : NormalizedOdds) (h : 1 < n.backPrice) :
    ∃ o, Optimize p freshId now n = .ok o ∧
      ∀ cacheSetErr : Option String,
        OptimizeOdds p cacheSetErr freshId now n = .ok o := by
  have hnot : ¬ n.backPrice ≤ 1 := not_le.mpr h
  refine ⟨mkOptimizedOdds p freshId now n, by simp only [Optimize, if_neg hnot], ?_⟩
  intro cacheSetErr
  cases cacheSetErr <;> simp [OptimizeOdds, Optimize, if_neg hnot]

/-- Witness for C8: the football fixture, with the cache write failing. -/
theorem optimizeOdds_survives_cache_failure_witness :
    ((1:ℚ) < footballQuote.backPrice) ∧
    ∃ o, Optimize defaultParams 7 0 footballQuote = .ok o ∧
      ∀ cacheSetErr : Option String,
        OptimizeOdds defaultParams cacheSetErr 7 0 footballQuote = .ok o :=
  ⟨by norm_num [footballQuote],
    optimizeOdds_survives_cache_failure defaultParams 7 0 footballQuote
      (by norm_num [footballQuote])⟩

/-- C9: for every pair of valid inputs (`back_price > 1`) that differ only
in `lay_price`, `Optimize` (run with the same minted id and computed-at
time) produces outputs equal in every field except `original_lay`: the lay
price has no influence on `optimized_back`, `optimized_lay`, `margin`, or
`confidence`, even when the lay price is present and greater than 1. -/
theorem optimize_ignores_lay_price (p : OptimizationParams) (freshId : Nat)
    (now : ℚ) (n : NormalizedOdds) (lp : ℚ) (h : 1 < n.backPrice) :
    ∃ o₁ o₂, Optimize p freshId now n = .ok o₁ ∧
      Optimize p freshId now { n with layPrice := lp } = .ok o₂ ∧
      o₂ = { o₁ with originalLay := lp } := by
  have hnot : ¬ n.backPrice ≤ 1 := not_le.mpr h
  have hnot' : ¬ ({ n with layPrice := lp } : NormalizedOdds).backPrice ≤ 1 := hnot
  exact ⟨mkOptimizedOdds p freshId now n,
    mkOptimizedOdds p freshId now { n with layPrice := lp },
    by simp only [Optimize, if_neg hnot],
    by simp only [Optimize, if_neg hnot'],
    rfl⟩

/-- Witness for C9: the football fixture against a lay price of 3.10. -/
theorem optimize_ignores_lay_price_witness :
    ((1:ℚ) < footballQuote.backPrice) ∧
    ∃ o₁ o₂, Optimize defaultParams 7 0 footballQuote = .ok o₁ ∧
      Optimize defaultParams 7 0 { footballQuote with layPrice := 31/10 } = .ok o₂ ∧
      o₂ = { o₁ with originalLay := 31/10 } :=
  ⟨by norm_num [footballQuote],
    optimize_ignores_lay_price defaultParams 7 0 footballQuote (31/10)
      (by norm_num [footballQuote])⟩

/-- C10: for the valid input `back_price = 1.01` (tennis, ample liquidity)
under the default parameters, `Optimize` succeeds and returns an
`optimized_lay` strictly less than 1: the spread-floor adjustment subtracts
from `optimized_lay` after the probability-to-odds safeguard has already
run, so the safeguard's lower bound of 1 is not an invariant of the final
output prices. -/
theorem optimize_lay_below_one_concrete :
    (1:ℚ) < tennisLowPriceQuote.backPrice ∧
    0 < defaultParams.minMargin ∧ defaultParams.minMargin < defaultParams.maxMargin ∧
    0 < defaultParams.minSpread ∧
    ∃ o, Optimize defaultParams 3 0 tennisLowPriceQuote = .ok o ∧
      o.optimizedLay < 1 := by
  refine ⟨?_, ?_, ?_, ?_, mkOptimizedOdds defaultParams 3 0 tennisLowPriceQuote, ?_, ?_⟩ <;>
    norm_num +decide [Optimize, mkOptimizedOdds, calculateImpliedProbability,
      calculateTargetMargin, calculateConfidence, probabilityToOdds,
      tennisLowPriceQuote, footballQuote, defaultParams, min_def, max_def]
